import Mathlib

/-!
Shallow embedding of the advisory engine of the AI SQL Optimizer backend
(`static_rules`, `dedupe` and the `/analyze` merge logic).

Strings are modelled as Lean `String`/`List Char`; Python's regular
expressions are transcribed as executable scanners with the exact
semantics of the patterns used by the source (word boundaries `\b`,
greedy character classes, leftmost match, case-insensitive matching and
the `.`-does-not-match-newline rule where it applies).  Python's
`str.upper`/`str.lower`/`\s`/`\w` are modelled on ASCII, which covers
every string the program itself introduces.  The `sqlparse.format`
normalizer is an external library (not part of this repository); the
embedding therefore takes the formatted SQL text as its input, and the
external generative call is modelled by an `AugOutcome` parameter
(absent key / failed call / parsed structured reply), which is exactly
the information the merge code consumes.
-/

namespace SqlOpt

/-- Python `\s` on ASCII: space, tab, newline, carriage return, vertical tab, form feed. -/
def isWsC (c : Char) : Bool :=
  c == ' ' || c == '\t' || c == '\n' || c == '\r' || c == '\x0b' || c == '\x0c'

/-- Python `\w` on ASCII: letters, digits, underscore. -/
def isWordC (c : Char) : Bool := c.isAlpha || c.isDigit || c == '_'

/-- `re.sub(r"\s+", " ", s)`: every maximal whitespace run becomes one space. -/
def collapseAux : Bool → List Char → List Char
  | _, [] => []
  | prevWs, c :: rest =>
    if isWsC c then
      if prevWs then collapseAux true rest else ' ' :: collapseAux true rest
    else c :: collapseAux false rest

def collapseWs (s : List Char) : List Char := collapseAux false s

def stripL (s : List Char) : List Char := s.dropWhile isWsC

def stripR (s : List Char) : List Char := (s.reverse.dropWhile isWsC).reverse

/-- Python `str.strip()` (ASCII whitespace). -/
def stripB (s : List Char) : List Char := stripR (stripL s)

/-- The `_norm` helper of `analyze`: collapse whitespace, strip, lower-case. -/
def pyNorm (s : List Char) : List Char := (stripB (collapseWs s)).map Char.toLower

/-- Does the pattern occur literally at the head of the input? -/
def begWith : List Char → List Char → Bool
  | [], _ => true
  | _ :: _, [] => false
  | p :: ps, c :: cs => p == c && begWith ps cs

/-- Python's substring operator `p in s` (exact characters). -/
def hasSeg (p : List Char) : List Char → Bool
  | [] => begWith p []
  | s@(_ :: rest) => begWith p s || hasSeg p rest

/-- Match a literal exactly, returning the input after it. -/
def matchLit : List Char → List Char → Option (List Char)
  | [], s => some s
  | _ :: _, [] => none
  | p :: ps, c :: cs => if p == c then matchLit ps cs else none

/-- Match a literal case-insensitively (ASCII), returning the input after it. -/
def matchCI : List Char → List Char → Option (List Char)
  | [], s => some s
  | _ :: _, [] => none
  | p :: ps, c :: cs => if p.toLower == c.toLower then matchCI ps cs else none

/-- Python `" ".join`. -/
def joinSp : List String → String
  | [] => ""
  | [x] => x
  | x :: xs => x ++ " " ++ joinSp xs

/-- Python `"\n".join`. -/
def joinNl : List String → String
  | [] => ""
  | [x] => x
  | x :: xs => x ++ "\n" ++ joinNl xs

/-- Python `", ".join`. -/
def joinComma : List String → String
  | [] => ""
  | [x] => x
  | x :: xs => x ++ ", " ++ joinComma xs

/-- A conditional one-element list: the shape of the source's guarded `append`s. -/
def condList (b : Bool) (m : String) : List String := if b then [m] else []

/-- Python `l or d` for lists. -/
def listOr (l d : List String) : List String := if l = [] then d else l

/-- Python `a or b` where `a` is an optional string and `b` an optional string. -/
def pyOrStr : Option String → Option String → Option String
  | some s, b => if s = "" then b else some s
  | none, b => b

/-- Python `a or d` where `a` is an optional string and `d` a string default. -/
def pyStrD (o : Option String) (d : String) : String :=
  match o with
  | some s => if s = "" then d else s
  | none => d

/-- Python `a or d` where `a` is an optional list and `d` a list default. -/
def pyListD (o : Option (List String)) (d : List String) : List String :=
  match o with
  | some l => if l = [] then d else l
  | none => d

/-- The `dedupe` helper of `analyze`: keep the first occurrence of each entry.
The Python `seen` set is modelled by the list of elements already kept. -/
def dedupeAux {α : Type} [DecidableEq α] (seen : List α) : List α → List α
  | [] => []
  | s :: rest => if s ∈ seen then dedupeAux seen rest else s :: dedupeAux (s :: seen) rest

def dedupe {α : Type} [DecidableEq α] (l : List α) : List α := dedupeAux [] l

/-! ### Rule R1: `\bSELECT\s+\*\b` -/

def headWordC : List Char → Bool
  | c :: _ => isWordC c
  | [] => false

/-- After `SELECT` + one whitespace: more `\s`, then `*`, then `\b`
(`*` is a non-word character, so the boundary needs a word character next). -/
def starTail : List Char → Bool
  | c :: rest => if isWsC c then starTail rest else c == '*' && headWordC rest
  | [] => false

def selStarHere (s : List Char) : Bool :=
  match matchLit "SELECT".data s with
  | some (c :: rest) => isWsC c && starTail rest
  | _ => false

/-- `\b` before a word character: start of string or a non-word character before. -/
def nonWordB : Option Char → Bool
  | none => true
  | some p => !isWordC p

def d1Scan (prev : Option Char) : List Char → Bool
  | [] => false
  | s@(c :: rest) => (nonWordB prev && selStarHere s) || d1Scan (some c) rest

/-! ### Rule R2: `LIKE\s+['\"]%[^'\"]+['\"]` -/

def isQuoteC (c : Char) : Bool := c == '\'' || c == '"'

/-- `[^'\"]+['\"]` after the first non-quote character: run to the first quote. -/
def qScan : List Char → Bool
  | [] => false
  | c :: rest => if isQuoteC c then true else qScan rest

def nqThenQ : List Char → Bool
  | c :: rest => !isQuoteC c && qScan rest
  | [] => false

def pctBody : List Char → Bool
  | '%' :: rest => nqThenQ rest
  | _ => false

def pctTail : List Char → Bool
  | c :: rest => if isWsC c then pctTail rest else isQuoteC c && pctBody rest
  | [] => false

def likeHere (s : List Char) : Bool :=
  match matchLit "LIKE".data s with
  | some (c :: rest) => isWsC c && pctTail rest
  | _ => false

def likeScan : List Char → Bool
  | [] => false
  | s@(_ :: rest) => likeHere s || likeScan rest

/-! ### Rule R3: `WHERE\s+.*\b(YEAR|MONTH|DAY|DATEADD|DATEDIFF|SUBSTRING|CAST|CONVERT)\s*\(` -/

def wsLParen : List Char → Bool
  | [] => false
  | c :: rest => if isWsC c then wsLParen rest else c == '('

def fnNames : List (List Char) :=
  ["YEAR".data, "MONTH".data, "DAY".data, "DATEADD".data, "DATEDIFF".data,
   "SUBSTRING".data, "CAST".data, "CONVERT".data]

def fnOne (nm : List Char) (s : List Char) : Bool :=
  match matchLit nm s with
  | some r => wsLParen r
  | none => false

def anyFn (s : List Char) : Bool := fnNames.any (fun nm => fnOne nm s)

def fnHere (prev : Char) (s : List Char) : Bool := !isWordC prev && anyFn s

/-- Scanning the `.*` gap: `.` does not match a newline. -/
def d3Gap (prev : Char) : List Char → Bool
  | [] => false
  | s@(c :: rest) => fnHere prev s || (c != '\n' && d3Gap c rest)

/-- Scanning inside the `\s+` run (at least one whitespace already consumed);
any whitespace may extend the run, a non-whitespace character starts the gap. -/
def d3Ws (prev : Char) : List Char → Bool
  | [] => false
  | s@(c :: rest) =>
    fnHere prev s || (if isWsC c then d3Ws c rest else c != '\n' && d3Gap c rest)

def d3Start : List Char → Bool
  | c :: rest => isWsC c && d3Ws c rest
  | [] => false

def d3Scan : List Char → Bool
  | [] => false
  | s@(_ :: rest) =>
    (match matchLit "WHERE".data s with
     | some r => d3Start r
     | none => false) || d3Scan rest

/-! ### Rule R4: `\bWHERE\b.*\bOR\b` -/

def headNonWordOrEnd : List Char → Bool
  | [] => true
  | c :: _ => !isWordC c

def orHere (prev : Char) (s : List Char) : Bool :=
  !isWordC prev &&
    (match matchLit "OR".data s with
     | some r => headNonWordOrEnd r
     | none => false)

def orGap (prev : Char) : List Char → Bool
  | [] => false
  | s@(c :: rest) => orHere prev s || (c != '\n' && orGap c rest)

def d4Scan (prev : Option Char) : List Char → Bool
  | [] => false
  | s@(c :: rest) =>
    (nonWordB prev &&
      (match matchLit "WHERE".data s with
       | some r => headNonWordOrEnd r && orGap 'E' r
       | none => false)) || d4Scan (some c) rest

/-! ### The year-equality search
`(?P<prefix>\bWHERE\b.*?)(?P<yr>YEAR)\s*\(\s*(?P<col>[A-Za-z0-9_\.\[\]]+)\s*\)\s*=\s*(?P<yyyy>20\d{2}|19\d{2})`
with `IGNORECASE | DOTALL`, evaluated on the stripped (not upper-cased) text.
Leftmost match: the first `\bWHERE\b`, then (lazy `.*?`, which under `DOTALL`
may span anything) the earliest subsequent tail match. -/

def isColC (c : Char) : Bool :=
  c.isAlpha || c.isDigit || c == '_' || c == '.' || c == '[' || c == ']'

def skipWs (s : List Char) : List Char := s.dropWhile isWsC

/-- `20\d{2}|19\d{2}`: exactly four digits beginning `20` or `19`;
whatever follows them is unconstrained. -/
def yearDigits : List Char → Option Nat
  | a :: b :: c :: d :: _ =>
    if ((a == '2' && b == '0') || (a == '1' && b == '9')) && c.isDigit && d.isDigit then
      some ((a.toNat - 48) * 1000 + (b.toNat - 48) * 100 + (c.toNat - 48) * 10 + (d.toNat - 48))
    else none
  | _ => none

def tailHereY (s : List Char) : Option (List Char × Nat) :=
  match matchCI "year".data s with
  | some r1 =>
    match skipWs r1 with
    | '(' :: r2 =>
      let r3 := skipWs r2
      let col := r3.takeWhile isColC
      if col = [] then none else
      match skipWs (r3.dropWhile isColC) with
      | ')' :: r4 =>
        match skipWs r4 with
        | '=' :: r5 => (yearDigits (skipWs r5)).map (fun y => (col, y))
        | _ => none
      | _ => none
    | _ => none
  | none => none

def tailScanY : List Char → Option (List Char × Nat)
  | [] => none
  | s@(_ :: rest) =>
    match tailHereY s with
    | some v => some v
    | none => tailScanY rest

/-- First `\bWHERE\b` (case-insensitive), returning the text after it. -/
def whereScan (prev : Option Char) : List Char → Option (List Char)
  | [] => none
  | s@(c :: rest) =>
    match (if nonWordB prev then
             match matchCI "where".data s with
             | some r => if headNonWordOrEnd r then some r else none
             | none => none
           else none) with
    | some r => some r
    | none => whereScan (some c) rest

def yearFind (sqlNorm : List Char) : Option (List Char × Nat) :=
  (whereScan none sqlNorm).bind tailScanY

/-! ### The year-equality substitution
`re.sub(r"\bYEAR\s*\(\s*" + re.escape(col) + r"\s*\)\s*=\s*" + str(yyyy), range, sql_norm,
count=1, flags=IGNORECASE)`; when the pattern does not occur, `re.sub`
returns the text unchanged. -/

def subHere (col : List Char) (ys : List Char) (s : List Char) : Option (List Char) :=
  match matchCI "year".data s with
  | some r1 =>
    match skipWs r1 with
    | '(' :: r2 =>
      match matchCI col (skipWs r2) with
      | some r3 =>
        match skipWs r3 with
        | ')' :: r4 =>
          match skipWs r4 with
          | '=' :: r5 => matchLit ys (skipWs r5)
          | _ => none
        | _ => none
      | none => none
    | _ => none
  | none => none

/-- Leftmost occurrence (with `\b` before `YEAR`); returns the text before
the match and the text after it. -/
def subScan (col ys : List Char) (prev : Option Char) : List Char → Option (List Char × List Char)
  | [] => none
  | s@(c :: rest) =>
    match (if nonWordB prev then subHere col ys s else none) with
    | some post => some ([], post)
    | none =>
      match subScan col ys (some c) rest with
      | some (pre, post) => some (c :: pre, post)
      | none => none

/-- `f"{col} >= '{yyyy:04d}-01-01' AND {col} < '{(yyyy+1):04d}-01-01'"`
(the matched year is always in 1900..2099, so `toString` gives four digits). -/
def rangePred (col : List Char) (y : Nat) : List Char :=
  col ++ " >= '".data ++ (toString y).data ++ "-01-01' AND ".data ++
    col ++ " < '".data ++ (toString (y + 1)).data ++ "-01-01'".data

def yearSub (col : List Char) (y : Nat) (sqlNorm : List Char) : List Char :=
  match subScan col (toString y).data none sqlNorm with
  | some (pre, post) => pre ++ rangePred col y ++ post
  | none => sqlNorm

/-! ### Index-key guess: `re.findall(r"\b([A-Z_][A-Z0-9_\.]+)\s*=\s*[@:\w'\-]+", compact)` -/

def isIdent0C (c : Char) : Bool := c.isUpper || c == '_'

def isIdentC (c : Char) : Bool := c.isUpper || c.isDigit || c == '_' || c == '.'

def isValC (c : Char) : Bool := c == '@' || c == ':' || isWordC c || c == '\'' || c == '-'

/-- One candidate match at the head: identifier of at least two characters,
`\s*=\s*`, then a non-empty value run.  Returns the captured identifier,
the last consumed character (the boundary context for the next scan
position) and the remaining text. -/
def eqAt : List Char → Option (List Char × Char × List Char)
  | c :: rest =>
    if isIdent0C c then
      let run := rest.takeWhile isIdentC
      if run = [] then none else
      match skipWs (rest.dropWhile isIdentC) with
      | '=' :: r3 =>
        let r4 := skipWs r3
        let v := r4.takeWhile isValC
        if v = [] then none
        else some (c :: run, v.getLastD ' ', r4.dropWhile isValC)
      | _ => none
    else none
  | [] => none

/-- `findall`: leftmost, non-overlapping; scanning resumes after each match.
The fuel is the input length, which bounds the number of scan positions. -/
def eqScanF : Nat → Option Char → List Char → List (List Char)
  | 0, _, _ => []
  | _ + 1, _, [] => []
  | fuel + 1, prev, s@(c :: rest) =>
    if nonWordB prev then
      match eqAt s with
      | some (ident, lastC, rest2) => ident :: eqScanF fuel (some lastC) rest2
      | none => eqScanF fuel (some c) rest
    else eqScanF fuel (some c) rest

/-! ### Table-name guess: `\bFROM\s+([A-Z0-9_\.\[\]]+)`, then `\bJOIN\s+...` -/

def isTblC (c : Char) : Bool :=
  c.isUpper || c.isDigit || c == '_' || c == '.' || c == '[' || c == ']'

def tblHere (kw : List Char) (s : List Char) : Option (List Char) :=
  match matchLit kw s with
  | some (c :: r1) =>
    if isWsC c then
      let run := (skipWs r1).takeWhile isTblC
      if run = [] then none else some run
    else none
  | _ => none

def tblScan (kw : List Char) (prev : Option Char) : List Char → Option (List Char)
  | [] => none
  | s@(c :: rest) =>
    match (if nonWordB prev then tblHere kw s else none) with
    | some run => some run
    | none => tblScan kw (some c) rest

def tblName (compact : List Char) : String :=
  match tblScan "FROM".data none compact with
  | some run => String.mk (run.map Char.toLower)
  | none =>
    match tblScan "JOIN".data none compact with
    | some run => String.mk (run.map Char.toLower)
    | none => "<yourtable>"

/-- Python `col.split(".")[-1]`. -/
def lastSeg (ident : List Char) : List Char := (ident.splitOn '.').getLastD []

/-! ### The fixed message strings of `static_rules` and `analyze` -/

def msgStar : String := "Avoid SELECT *. Project only required columns."

def riskStar : String := "Extra I/O and wider rows reduce buffer cache efficiency."

def gStar : String := "-- Replace SELECT * with only required columns."

def msgLike : String := "Leading wildcard LIKE prevents index seeks."

def gLike : String := "-- Consider full-text index (CONTAINS) or trigram search."

def riskLike : String := "Full scans on large tables can be expensive."

def msgSarg : String := "Non-sargable predicate (function on column) blocks index seeks."

def gSarg : String := "-- Rewrite to a range predicate on the raw column when possible."

def msgOr : String := "OR conditions may reduce index usage; consider UNION ALL or indexed computed columns."

def msgOrderBy : String := "ORDER BY detected; ensure index supports ORDER BY key(s)."

def msgJoin : String := "JOIN without WHERE may explode rows; verify join predicates and filters."

def gYear : String := "-- Replaced YEAR(col)=YYYY with a sargable date range."

def phraseSarg : String := "Non-sargable predicate"

/-! ### `static_rules` -/

structure StaticOut where
  findings : List String
  rewriteOut : Option String
  indexRecs : List String
  risks : List String

/-- The findings list: the six detectors append in declared order, then the
year-rewrite branch appends the non-sargable message unless
`"Non-sargable predicate" in " ".join(findings)` already holds. -/
def staticFindings (b1 b2 b3 b4 b5 b6 yrSome : Bool) : List String :=
  let fs0 := condList b1 msgStar ++ condList b2 msgLike ++ condList b3 msgSarg ++
             condList b4 msgOr ++ condList b5 msgOrderBy ++ condList b6 msgJoin
  fs0 ++ condList (yrSome && !hasSeg phraseSarg.data (joinSp fs0).data) msgSarg

def staticRewrites (b1 b2 b3 yrSome : Bool) : List String :=
  condList b1 gStar ++ condList b2 gLike ++ condList b3 gSarg ++ condList yrSome gYear

def staticRisks (b1 b2 : Bool) : List String :=
  condList b1 riskStar ++ condList b2 riskLike

/-- `f"create index ix_{cols[0]}_suggested on {table_name} ({', '.join(cols)});"` -/
def mkIdxRec (cols : List String) (tbl : String) : String :=
  "create index ix_" ++ cols.headD "" ++ "_suggested on " ++ tbl ++
    " (" ++ joinComma cols ++ ");"

def staticIndexRecs (compact : List Char) : List String :=
  let ids := eqScanF compact.length none compact
  if ids = [] then []
  else
    let cols := (dedupe (ids.map (fun c => String.mk ((lastSeg c).map Char.toLower)))).take 3
    if cols = [] then [] else [mkIdxRec cols (tblName compact)]

def static_rules (sql : String) : StaticOut :=
  let sqlNorm := stripB sql.data
  let compact := (collapseWs sqlNorm).map Char.toUpper
  let b1 := d1Scan none compact
  let b2 := likeScan compact
  let b3 := d3Scan compact
  let b4 := d4Scan none compact
  let b5 := hasSeg "ORDER BY".data compact && !hasSeg "JOIN".data compact
  let b6 := !hasSeg "WHERE".data compact && hasSeg "JOIN".data compact
  let yr := yearFind sqlNorm
  let rewrites := staticRewrites b1 b2 b3 yr.isSome
  let base : Option String := yr.map (fun p => String.mk (yearSub p.1 p.2 sqlNorm))
  let guidance : Option String := if rewrites = [] then none else some (joinNl rewrites)
  { findings := staticFindings b1 b2 b3 b4 b5 b6 yr.isSome
    rewriteOut := pyOrStr base guidance
    indexRecs := staticIndexRecs compact
    risks := staticRisks b1 b2 }

/-! ### `analyze` -/

structure LlmOut where
  summary : Option String := none
  findings : Option (List String) := none
  rewrite_sql : Option String := none
  index_recommendations : Option (List String) := none
  risks : Option (List String) := none
  test_steps : Option (List String) := none

/-- The three ways the optional augmentation pass can go: no configured key,
the external call raised (any exception, with its message), or a parsed
structured reply. -/
inductive AugOutcome where
  | noKey : AugOutcome
  | failed : String → AugOutcome
  | ok : LlmOut → AugOutcome

structure AnalyzeResponse where
  summary : String
  findings : List String
  rewrite_sql : Option String
  index_recommendations : List String
  risks : List String
  test_steps : List String

def defaultSteps : List String :=
  ["Capture current plan & metrics (duration, CPU, reads).",
   "Apply one change at a time (index or rewrite).",
   "Compare estimated vs actual plans; validate row estimates.",
   "Benchmark on prod-like data; check regressions."]

def analyze (sql_fmt : String) (oc : AugOutcome) : AnalyzeResponse :=
  let S := static_rules sql_fmt
  match oc with
  | .noKey =>
    { summary := "Static analysis completed (OpenAI not configured)."
      findings := listOr S.findings ["No obvious issues detected by static rules."]
      rewrite_sql := S.rewriteOut
      index_recommendations := S.indexRecs
      risks := S.risks
      test_steps := defaultSteps }
  | .failed err =>
    { summary := "Static analysis completed (LLM call failed)."
      findings := S.findings ++ ["AI enhancer unavailable: " ++ err]
      rewrite_sql := S.rewriteOut
      index_recommendations := S.indexRecs
      risks := S.risks
      test_steps := defaultSteps }
  | .ok llm =>
    let rewrite0 := pyOrStr llm.rewrite_sql S.rewriteOut
    let rewrite :=
      match rewrite0 with
      | some r => if r ≠ "" ∧ pyNorm r.data = pyNorm sql_fmt.data then S.rewriteOut else some r
      | none => none
    { summary := pyStrD llm.summary "Analysis completed."
      findings := listOr (dedupe (S.findings ++ llm.findings.getD []))
                    ["No obvious issues found."]
      rewrite_sql := rewrite
      index_recommendations := dedupe (S.indexRecs ++ llm.index_recommendations.getD [])
      risks := dedupe (S.risks ++ llm.risks.getD [])
      test_steps := pyListD llm.test_steps defaultSteps }

/-- A structured reply with every field missing (or discarded as non-conforming). -/
def llmEmpty : LlmOut := {}

end SqlOpt

namespace SqlOpt

/-! ## Helper lemmas -/

theorem strData_append (a b : String) : (a ++ b).data = a.data ++ b.data := rfl

theorem begWith_iff {p s : List Char} : begWith p s = true ↔ ∃ t, s = p ++ t := by
  induction p generalizing s with
  | nil => simp [begWith]
  | cons a ps ih =>
    cases s with
    | nil => simp [begWith]
    | cons c cs =>
      simp only [begWith, Bool.and_eq_true, beq_iff_eq]
      constructor
      · rintro ⟨rfl, h⟩
        rcases ih.mp h with ⟨t, rfl⟩
        exact ⟨t, rfl⟩
      · rintro ⟨t, h⟩
        injection h with h1 h2
        subst h1
        exact ⟨rfl, ih.mpr ⟨t, h2⟩⟩

theorem hasSeg_iff {p s : List Char} : hasSeg p s = true ↔ ∃ a t, s = a ++ (p ++ t) := by
  induction s with
  | nil =>
    simp only [hasSeg, begWith_iff]
    constructor
    · rintro ⟨t, h⟩
      exact ⟨[], t, by simpa using h⟩
    · rintro ⟨a, t, h⟩
      rcases List.append_eq_nil.mp h.symm with ⟨rfl, h2⟩
      exact ⟨t, by simpa using h⟩
  | cons c cs ih =>
    simp only [hasSeg, Bool.or_eq_true, begWith_iff, ih]
    constructor
    · rintro (⟨t, h⟩ | ⟨a, t, h⟩)
      · exact ⟨[], t, by simpa using h⟩
      · exact ⟨c :: a, t, by simp [h]⟩
    · rintro ⟨a, t, h⟩
      cases a with
      | nil => exact Or.inl ⟨t, by simpa using h⟩
      | cons a0 as =>
        injection h with h1 h2
        exact Or.inr ⟨as, t, h2⟩

theorem hasSeg_append_left {p s u : List Char} (h : hasSeg p s = true) :
    hasSeg p (s ++ u) = true := by
  rcases hasSeg_iff.mp h with ⟨a, t, rfl⟩
  exact hasSeg_iff.mpr ⟨a, t ++ u, by simp⟩

theorem hasSeg_append_right {p s u : List Char} (h : hasSeg p u = true) :
    hasSeg p (s ++ u) = true := by
  rcases hasSeg_iff.mp h with ⟨a, t, rfl⟩
  exact hasSeg_iff.mpr ⟨s ++ a, t, by simp⟩

theorem hasSeg_joinSp {p : List Char} {x : String} {l : List String}
    (hx : x ∈ l) (h : hasSeg p x.data = true) :
    hasSeg p (joinSp l).data = true := by
  induction l with
  | nil => cases hx
  | cons y ys ih =>
    rcases List.mem_cons.mp hx with rfl | hmem
    · cases ys with
      | nil => simpa [joinSp] using h
      | cons z zs =>
        show hasSeg p (x ++ " " ++ joinSp (z :: zs)).data = true
        rw [strData_append, strData_append]
        exact hasSeg_append_left (hasSeg_append_left h)
    · cases ys with
      | nil => cases hmem
      | cons z zs =>
        show hasSeg p (y ++ " " ++ joinSp (z :: zs)).data = true
        rw [strData_append, strData_append]
        exact hasSeg_append_right (ih hmem)

theorem begWith_append_self (p t : List Char) : begWith p (p ++ t) = true := by
  induction p with
  | nil => rfl
  | cons a ps ih => simp [begWith, ih]

theorem mem_condList {x m : String} {b : Bool} (h : x ∈ condList b m) : x = m := by
  cases b
  · simp [condList] at h
  · simpa [condList] using h

theorem condList_sublist (b : Bool) (m : String) : List.Sublist (condList b m) [m] := by
  cases b <;> simp [condList]

theorem listOr_nodup {l d : List String} (hl : l.Nodup) (hd : d.Nodup) :
    (listOr l d).Nodup := by
  unfold listOr
  split <;> assumption

/-! ### dedupe lemmas -/

theorem dedupeAux_not_mem_seen {α : Type} [DecidableEq α] {seen l : List α} {a : α}
    (h : a ∈ dedupeAux seen l) : a ∉ seen := by
  induction l generalizing seen with
  | nil => cases h
  | cons s rest ih =>
    by_cases hs : s ∈ seen
    · rw [dedupeAux, if_pos hs] at h
      exact ih h
    · rw [dedupeAux, if_neg hs] at h
      rcases List.mem_cons.mp h with rfl | h2
      · exact hs
      · intro hin
        exact ih h2 (List.mem_cons_of_mem _ hin)

theorem dedupeAux_nodup {α : Type} [DecidableEq α] (seen l : List α) :
    (dedupeAux seen l).Nodup := by
  induction l generalizing seen with
  | nil => exact List.nodup_nil
  | cons s rest ih =>
    by_cases hs : s ∈ seen
    · rw [dedupeAux, if_pos hs]
      exact ih seen
    · rw [dedupeAux, if_neg hs]
      refine List.nodup_cons.mpr ⟨?_, ih (s :: seen)⟩
      intro hmem
      exact dedupeAux_not_mem_seen hmem (List.mem_cons_self s seen)

theorem dedupe_nodup {α : Type} [DecidableEq α] (l : List α) : (dedupe l).Nodup :=
  dedupeAux_nodup [] l

theorem dedupeAux_sublist {α : Type} [DecidableEq α] (seen l : List α) :
    List.Sublist (dedupeAux seen l) l := by
  induction l generalizing seen with
  | nil => simp [dedupeAux]
  | cons s rest ih =>
    by_cases hs : s ∈ seen
    · rw [dedupeAux, if_pos hs]
      exact (ih seen).cons s
    · rw [dedupeAux, if_neg hs]
      exact (ih (s :: seen)).cons₂ s

theorem mem_dedupeAux {α : Type} [DecidableEq α] {a : α} {seen l : List α}
    (h : a ∈ l) (hn : a ∉ seen) : a ∈ dedupeAux seen l := by
  induction l generalizing seen with
  | nil => cases h
  | cons s rest ih =>
    by_cases hs : s ∈ seen
    · rw [dedupeAux, if_pos hs]
      rcases List.mem_cons.mp h with rfl | h2
      · exact absurd hs hn
      · exact ih h2 hn
    · rw [dedupeAux, if_neg hs]
      rcases List.mem_cons.mp h with rfl | h2
      · exact List.mem_cons_self _ _
      · by_cases ha : a = s
        · subst ha
          exact List.mem_cons_self _ _
        · refine List.mem_cons_of_mem _ (ih h2 ?_)
          simp [List.mem_cons, ha, hn]

theorem dedupeAux_idem {α : Type} [DecidableEq α] (seen l : List α) :
    dedupeAux seen (dedupeAux seen l) = dedupeAux seen l := by
  induction l generalizing seen with
  | nil => rfl
  | cons s rest ih =>
    by_cases hs : s ∈ seen
    · rw [dedupeAux, if_pos hs, ih]
    · rw [dedupeAux, if_neg hs]
      show dedupeAux seen (s :: dedupeAux (s :: seen) rest) = _
      rw [dedupeAux, if_neg hs, ih]

end SqlOpt

namespace SqlOpt

/-! ### Nodup and membership facts about the static pass -/

theorem staticFindings_mem {x : String} {b1 b2 b3 b4 b5 b6 y : Bool}
    (h : x ∈ staticFindings b1 b2 b3 b4 b5 b6 y) :
    x ∈ [msgStar, msgLike, msgSarg, msgOr, msgOrderBy, msgJoin] := by
  simp only [staticFindings, List.mem_append] at h
  rcases h with ((((((h | h) | h) | h) | h) | h) | h) <;>
    simp [mem_condList h]

theorem staticFindings_nodup (b1 b2 b3 b4 b5 b6 y : Bool) :
    (staticFindings b1 b2 b3 b4 b5 b6 y).Nodup := by
  simp only [staticFindings]
  set fs0 := condList b1 msgStar ++ condList b2 msgLike ++ condList b3 msgSarg ++
      condList b4 msgOr ++ condList b5 msgOrderBy ++ condList b6 msgJoin with hfs0
  have h0 : fs0.Nodup := by
    have hsub : List.Sublist fs0 [msgStar, msgLike, msgSarg, msgOr, msgOrderBy, msgJoin] := by
      rw [hfs0]
      exact (((((condList_sublist b1 msgStar).append (condList_sublist b2 msgLike)).append
        (condList_sublist b3 msgSarg)).append (condList_sublist b4 msgOr)).append
        (condList_sublist b5 msgOrderBy)).append (condList_sublist b6 msgJoin)
    exact List.Nodup.sublist hsub (by decide)
  cases hb : (y && !hasSeg phraseSarg.data (joinSp fs0).data) with
  | false => simpa [condList] using h0
  | true =>
    have hfalse : hasSeg phraseSarg.data (joinSp fs0).data = false := by
      rcases (Bool.and_eq_true _ _).mp hb with ⟨_, hnot⟩
      simpa using hnot
    have hnotin : msgSarg ∉ fs0 := by
      intro hmem
      have hseg : hasSeg phraseSarg.data (joinSp fs0).data = true :=
        hasSeg_joinSp hmem (by decide)
      rw [hseg] at hfalse
      cases hfalse
    simp only [condList, if_pos]
    refine List.Nodup.append h0 (by simp) ?_
    intro a ha hb2
    rw [List.mem_singleton.mp hb2] at ha
    exact hnotin ha

theorem staticRisks_nodup (b1 b2 : Bool) : (staticRisks b1 b2).Nodup := by
  have hsub : List.Sublist (staticRisks b1 b2) [riskStar, riskLike] :=
    (condList_sublist b1 riskStar).append (condList_sublist b2 riskLike)
  exact List.Nodup.sublist hsub (by decide)

theorem staticIndexRecs_nodup (c : List Char) : (staticIndexRecs c).Nodup := by
  simp only [staticIndexRecs]
  split
  · exact List.nodup_nil
  · split
    · exact List.nodup_nil
    · simp

theorem diag_ne_static (e x : String)
    (hx : x ∈ [msgStar, msgLike, msgSarg, msgOr, msgOrderBy, msgJoin]) :
    "AI enhancer unavailable: " ++ e ≠ x := by
  intro heq
  have hb : begWith ("AI enhancer unavailable: ").data
      (("AI enhancer unavailable: " ++ e)).data = true := by
    rw [strData_append]
    exact begWith_append_self _ _
  rw [heq] at hb
  simp only [List.mem_cons, List.mem_singleton, List.not_mem_nil, or_false] at hx
  rcases hx with rfl | rfl | rfl | rfl | rfl | rfl <;> exact absurd hb (by decide)

/-- The fields of `static_rules` expose the helper shapes (definitional). -/
theorem static_rules_shape (sql : String) :
    ∃ b1 b2 b3 b4 b5 b6 y c,
      (static_rules sql).findings = staticFindings b1 b2 b3 b4 b5 b6 y ∧
      (static_rules sql).risks = staticRisks b1 b2 ∧
      (static_rules sql).indexRecs = staticIndexRecs c :=
  ⟨_, _, _, _, _, _, _, _, rfl, rfl, rfl⟩

theorem static_findings_nodup (sql : String) : (static_rules sql).findings.Nodup := by
  obtain ⟨b1, b2, b3, b4, b5, b6, y, c, hf, _, _⟩ := static_rules_shape sql
  rw [hf]
  exact staticFindings_nodup b1 b2 b3 b4 b5 b6 y

theorem static_risks_nodup (sql : String) : (static_rules sql).risks.Nodup := by
  obtain ⟨b1, b2, b3, b4, b5, b6, y, c, _, hr, _⟩ := static_rules_shape sql
  rw [hr]
  exact staticRisks_nodup b1 b2

theorem static_indexRecs_nodup (sql : String) : (static_rules sql).indexRecs.Nodup := by
  obtain ⟨b1, b2, b3, b4, b5, b6, y, c, _, _, hi⟩ := static_rules_shape sql
  rw [hi]
  exact staticIndexRecs_nodup c

theorem static_findings_mem {sql : String} {x : String}
    (h : x ∈ (static_rules sql).findings) :
    x ∈ [msgStar, msgLike, msgSarg, msgOr, msgOrderBy, msgJoin] := by
  obtain ⟨b1, b2, b3, b4, b5, b6, y, c, hf, _, _⟩ := static_rules_shape sql
  rw [hf] at h
  exact staticFindings_mem h

end SqlOpt

namespace SqlOpt

/-! ## Claim theorems -/

/-- C4: for the input `SELECT Id FROM Events WHERE YEAR(CreatedAt) = 2023`, the
result's `rewrite_sql` equals the input query with the year-equality predicate
replaced by the half-open range `CreatedAt >= '2023-01-01' AND CreatedAt < '2024-01-01'`,
and the findings include the non-sargable-predicate message. -/
theorem c4_scenario_b :
    msgSarg ∈ (analyze "SELECT Id FROM Events WHERE YEAR(CreatedAt) = 2023" .noKey).findings ∧
    (analyze "SELECT Id FROM Events WHERE YEAR(CreatedAt) = 2023" .noKey).rewrite_sql =
      some "SELECT Id FROM Events WHERE CreatedAt >= '2023-01-01' AND CreatedAt < '2024-01-01'" := by
  constructor <;> decide

end SqlOpt

namespace SqlOpt

/-- C1 (counterexample): for
`SELECT Name FROM Users u JOIN Orders o ON u.Id = o.UserId` the claim says no
index recommendation is produced, but the join's equality `u.Id = o.UserId`
matches the equality-predicate pattern, so one is produced. -/
theorem c1_counterexample :
    (analyze "SELECT Name FROM Users u JOIN Orders o ON u.Id = o.UserId"
      .noKey).index_recommendations ≠ [] := by
  decide

/-- C1 (amended): for the same input the findings include the unfiltered-join
message, and exactly one index recommendation is produced, namely
`create index ix_id_suggested on users (id);`, because the join condition's
`u.Id = o.UserId` matches the equality-predicate pattern (`o` matches the
value character class). -/
theorem c1_amended :
    msgJoin ∈ (analyze "SELECT Name FROM Users u JOIN Orders o ON u.Id = o.UserId"
      .noKey).findings ∧
    (analyze "SELECT Name FROM Users u JOIN Orders o ON u.Id = o.UserId"
      .noKey).index_recommendations = ["create index ix_id_suggested on users (id);"] := by
  constructor <;> decide

/-- C2 (counterexample): when neither the static pass nor the augmented pass
supplies a rewrite, the final `rewrite_sql` is absent (`none`), not the
sentinel string claimed by the spec; no sentinel substitution exists in the
code. -/
theorem c2_counterexample :
    (analyze "SELECT Id FROM T" (.ok llmEmpty)).rewrite_sql = none ∧
    (analyze "SELECT Id FROM T" (.ok llmEmpty)).rewrite_sql ≠
      some "no query rewrite suggestions were identified" := by
  constructor <;> decide

/-- C2 (amended): in the merge step, when the augmented rewrite is empty or
absent and the static rewrite is absent, the final `rewrite_sql` of the
response is absent (`none`); no canonical sentinel string is substituted. -/
theorem c2_amended (sql : String) (llm : LlmOut)
    (h1 : llm.rewrite_sql = none ∨ llm.rewrite_sql = some "")
    (h2 : (static_rules sql).rewriteOut = none) :
    (analyze sql (.ok llm)).rewrite_sql = none := by
  show (match pyOrStr llm.rewrite_sql (static_rules sql).rewriteOut with
        | some r =>
          if r ≠ "" ∧ pyNorm r.data = pyNorm sql.data then (static_rules sql).rewriteOut
          else some r
        | none => none) = none
  rcases h1 with h | h <;> rw [h, h2] <;> rfl

/-- C2 (witness for the amended theorem): a concrete run in which both
rewrites are empty and the response's `rewrite_sql` is absent. -/
theorem c2_amended_witness :
    (llmEmpty.rewrite_sql = none ∨ llmEmpty.rewrite_sql = some "") ∧
    (static_rules "SELECT Id FROM T").rewriteOut = none ∧
    (analyze "SELECT Id FROM T" (.ok llmEmpty)).rewrite_sql = none :=
  ⟨Or.inl rfl, by decide, c2_amended "SELECT Id FROM T" llmEmpty (Or.inl rfl) (by decide)⟩

/-- C3 (counterexample): the `summary` of a failed-augmentation response does
not equal the `summary` of the static-only computation, so not all other
fields equal the static-only computation. -/
theorem c3_counterexample :
    (analyze "SELECT 1" (.failed "timeout")).summary ≠
      (analyze "SELECT 1" .noKey).summary := by
  decide

/-- C3 (amended): for every request where augmentation is configured but the
external call fails, the response is still produced: its findings equal the
static findings plus exactly one diagnostic entry noting augmentation
unavailability, and `rewrite_sql`, `index_recommendations`, `risks` and
`test_steps` equal the static-only computation; the `summary` is the static
completion message with a failed-call qualifier (not the static-only
summary). -/
theorem c3_amended (sql err : String) :
    (analyze sql (.failed err)).summary = "Static analysis completed (LLM call failed)." ∧
    (analyze sql (.failed err)).findings =
      (static_rules sql).findings ++ ["AI enhancer unavailable: " ++ err] ∧
    (analyze sql (.failed err)).rewrite_sql = (analyze sql .noKey).rewrite_sql ∧
    (analyze sql (.failed err)).index_recommendations =
      (analyze sql .noKey).index_recommendations ∧
    (analyze sql (.failed err)).risks = (analyze sql .noKey).risks ∧
    (analyze sql (.failed err)).test_steps = (analyze sql .noKey).test_steps :=
  ⟨rfl, rfl, rfl, rfl, rfl, rfl⟩

set_option maxHeartbeats 2000000 in
/-- C5 (code bug): for the formatted input
`SELECT a FROM T WHERE XYEAR(c) = 2023` the year-equality search succeeds
(its pattern has no `\b` before `YEAR`, so it accepts `XYEAR`), while the
substitution pattern does have `\b` and matches nothing; `re.sub` then
returns the text unchanged, so the final non-empty `rewrite_sql` is the
input itself — whitespace/case-equivalent (indeed identical) to the
normalized input, violating the non-echo invariant even on the guarded
augmentation path. -/
theorem c5_echo_bug :
    (analyze "SELECT a FROM T WHERE XYEAR(c) = 2023" (.ok llmEmpty)).rewrite_sql =
      some "SELECT a FROM T WHERE XYEAR(c) = 2023" ∧
    ("SELECT a FROM T WHERE XYEAR(c) = 2023" : String) ≠ "" := by
  constructor <;> decide

set_option maxHeartbeats 2000000 in
/-- C6 (counterexample): when the deduplicated concatenation is empty, the
response's `findings` is the placeholder list, not the (empty) dedupe of the
concatenation. -/
theorem c6_counterexample :
    (analyze "SELECT Name FROM T2" (.ok llmEmpty)).findings ≠
      dedupe ((static_rules "SELECT Name FROM T2").findings ++ llmEmpty.findings.getD []) := by
  decide

/-- C6 (amended): in the merged result, `index_recommendations` and `risks`
equal the exact-string dedupe of the static sequence concatenated with the
augmented sequence; `findings` equals that dedupe unless it is empty, in
which case the placeholder `"No obvious issues found."` is substituted.  The
dedupe of the concatenation is a subsequence of the concatenation (so
first-seen order is preserved and retained static entries precede retained
augmented-only entries) and contains every element of the concatenation. -/
theorem c6_amended (sql : String) (llm : LlmOut) :
    (analyze sql (.ok llm)).findings =
      listOr (dedupe ((static_rules sql).findings ++ llm.findings.getD []))
        ["No obvious issues found."] ∧
    (analyze sql (.ok llm)).index_recommendations =
      dedupe ((static_rules sql).indexRecs ++ llm.index_recommendations.getD []) ∧
    (analyze sql (.ok llm)).risks =
      dedupe ((static_rules sql).risks ++ llm.risks.getD []) ∧
    List.Sublist (dedupe ((static_rules sql).findings ++ llm.findings.getD []))
      ((static_rules sql).findings ++ llm.findings.getD []) ∧
    ∀ x ∈ (static_rules sql).findings ++ llm.findings.getD [],
      x ∈ dedupe ((static_rules sql).findings ++ llm.findings.getD []) := by
  refine ⟨?_, ?_, ?_, dedupeAux_sublist [] _, ?_⟩
  · simp only [analyze]
  · simp only [analyze]
  · simp only [analyze]
  · intro x hx
    exact mem_dedupeAux hx (by simp)

/-- C7: for every input and every response path (no augmentation, successful
augmentation, failed augmentation), the response's `findings`,
`index_recommendations` and `risks` contain no repeated string under exact
string equality. -/
theorem c7_no_duplicates (sql : String) (oc : AugOutcome) :
    (analyze sql oc).findings.Nodup ∧
    (analyze sql oc).index_recommendations.Nodup ∧
    (analyze sql oc).risks.Nodup := by
  cases oc with
  | noKey =>
    refine ⟨?_, ?_, ?_⟩
    · simp only [analyze]
      exact listOr_nodup (static_findings_nodup sql) (by decide)
    · simp only [analyze]
      exact static_indexRecs_nodup sql
    · simp only [analyze]
      exact static_risks_nodup sql
  | failed err =>
    refine ⟨?_, ?_, ?_⟩
    · simp only [analyze]
      refine List.Nodup.append (static_findings_nodup sql) (by simp) ?_
      intro a ha hb
      rw [List.mem_singleton.mp hb] at ha
      exact diag_ne_static err _ (static_findings_mem ha) rfl
    · simp only [analyze]
      exact static_indexRecs_nodup sql
    · simp only [analyze]
      exact static_risks_nodup sql
  | ok llm =>
    refine ⟨?_, ?_, ?_⟩
    · simp only [analyze]
      exact listOr_nodup (dedupe_nodup _) (by decide)
    · simp only [analyze]
      exact dedupe_nodup _
    · simp only [analyze]
      exact dedupe_nodup _

/-- C8: for every input and every response path, the response's `test_steps`
is non-empty: it is the augmenter's list when that is present and non-empty,
and otherwise the canonical four-step default checklist. -/
theorem c8_test_steps (sql : String) (oc : AugOutcome) :
    (analyze sql oc).test_steps ≠ [] ∧
    ((∃ llm, oc = .ok llm ∧ llm.test_steps.getD [] ≠ [] ∧
        (analyze sql oc).test_steps = llm.test_steps.getD []) ∨
      (analyze sql oc).test_steps = defaultSteps) := by
  cases oc with
  | noKey =>
    refine ⟨?_, Or.inr rfl⟩
    show defaultSteps ≠ []
    decide
  | failed err =>
    refine ⟨?_, Or.inr rfl⟩
    show defaultSteps ≠ []
    decide
  | ok llm =>
    have hsteps : (analyze sql (.ok llm)).test_steps = pyListD llm.test_steps defaultSteps := rfl
    cases hts : llm.test_steps with
    | none =>
      refine ⟨?_, Or.inr ?_⟩
      · rw [hsteps, hts]
        decide
      · rw [hsteps, hts]
        rfl
    | some l =>
      by_cases hl : l = []
      · subst hl
        refine ⟨?_, Or.inr ?_⟩
        · rw [hsteps, hts]
          decide
        · rw [hsteps, hts]
          rfl
      · refine ⟨?_, Or.inl ⟨llm, rfl, ?_, ?_⟩⟩
        · rw [hsteps, hts]
          simp [pyListD, hl]
        · rw [hts]
          simpa using hl
        · rw [hsteps, hts]
          simp [pyListD, hl]

/-- C9: the dedupe function is idempotent — applying it twice yields the same
sequence as applying it once. -/
theorem c9_dedupe_idem (l : List String) : dedupe (dedupe l) = dedupe l :=
  dedupeAux_idem [] l

/-- C10 (counterexample): for `... WHERE YEAR(CreatedAt) = 20235` the year
literal is not a four-digit number in 1900..2099, yet a concrete structural
rewrite is produced (the first four digits `2023` match, leaving a stray
`5`), and the output is not the guidance-comment rewrite. -/
theorem c10_counterexample :
    (analyze "SELECT Id FROM Events WHERE YEAR(CreatedAt) = 20235" .noKey).rewrite_sql =
      some "SELECT Id FROM Events WHERE CreatedAt >= '2023-01-01' AND CreatedAt < '2024-01-01'5" ∧
    (analyze "SELECT Id FROM Events WHERE YEAR(CreatedAt) = 20235" .noKey).rewrite_sql ≠
      some gSarg := by
  constructor <;> decide

/-- The range predicate always contains the literal `" >= '"`, so it is
never the empty character list. -/
theorem rangePred_ne_nil (col : List Char) (y : Nat) : rangePred col y ≠ [] := by
  intro h
  have p1 := List.append_eq_nil.mp h
  have p2 := List.append_eq_nil.mp p1.1
  have p3 := List.append_eq_nil.mp p2.1
  have p4 := List.append_eq_nil.mp p3.1
  have p5 := List.append_eq_nil.mp p4.1
  have p6 := List.append_eq_nil.mp p5.1
  have p7 := List.append_eq_nil.mp p6.1
  exact (by decide : (" >= '".data : List Char) ≠ []) p7.2

/-- A successful year-equality search needs a non-empty text. -/
theorem yearFind_ne_nil {s : List Char} {p : List Char × Nat}
    (h : yearFind s = some p) : s ≠ [] := by
  intro hs
  subst hs
  simp [yearFind, whereScan] at h

/-- `re.sub` output on a non-empty text is non-empty: either the text is
returned unchanged, or the non-empty range predicate is spliced in. -/
theorem yearSub_ne_nil {col : List Char} {y : Nat} {s : List Char} (hs : s ≠ []) :
    yearSub col y s ≠ [] := by
  unfold yearSub
  split
  · intro h
    have p1 := List.append_eq_nil.mp h
    have p2 := List.append_eq_nil.mp p1.1
    exact rangePred_ne_nil col y p2.2
  · exact hs

theorem strMk_ne_empty {l : List Char} (h : l ≠ []) : String.mk l ≠ "" := by
  intro he
  exact h (congrArg String.data he)

/-- The `rewriteOut` field of `static_rules` is, definitionally, the Python
`base_rewrite_sql or guidance`: the year-substitution output when the search
matched, with a fallback to the joined guidance lines. -/
theorem static_rules_rewrite_shape (sql : String) :
    ∃ b1 b2 b3,
      (static_rules sql).rewriteOut =
        pyOrStr ((yearFind (stripB sql.data)).map
            (fun p => String.mk (yearSub p.1 p.2 (stripB sql.data))))
          (if staticRewrites b1 b2 b3 (yearFind (stripB sql.data)).isSome = [] then none
           else some (joinNl (staticRewrites b1 b2 b3 (yearFind (stripB sql.data)).isSome))) :=
  ⟨_, _, _, rfl⟩

/-- C10 (amended): for every input, the concrete structural date-range
rewrite is produced exactly when the year-equality search matches, i.e. when
a `WHERE` is followed somewhere by `YEAR(col) =` and four digits beginning
`19` or `20` (whatever follows those four digits is unconstrained, so
`= 20235` is rewritten using year 2023): in that case `rewriteOut` is the
substitution output for those four digits; when the search fails (as for the
literals `2100` or `185`), the rewrite output is at most the detectors'
guidance comment lines — absent, or the newline-join of a non-empty subset
of the three guidance comments. -/
theorem c10_amended (sql : String) :
    (∀ col y, yearFind (stripB sql.data) = some (col, y) →
      (static_rules sql).rewriteOut = some (String.mk (yearSub col y (stripB sql.data)))) ∧
    (yearFind (stripB sql.data) = none →
      (static_rules sql).rewriteOut = none ∨
      ∃ lines, lines ≠ [] ∧ (∀ x ∈ lines, x ∈ [gStar, gLike, gSarg]) ∧
        (static_rules sql).rewriteOut = some (joinNl lines)) := by
  obtain ⟨b1, b2, b3, hshape⟩ := static_rules_rewrite_shape sql
  constructor
  · intro col y hy
    rw [hshape, hy]
    have hne : String.mk (yearSub col y (stripB sql.data)) ≠ "" :=
      strMk_ne_empty (yearSub_ne_nil (yearFind_ne_nil hy))
    simp [pyOrStr, hne]
  · intro hy
    rw [hshape, hy]
    simp only [Option.map_none', Option.isSome_none, pyOrStr]
    by_cases hr : staticRewrites b1 b2 b3 false = []
    · left
      rw [if_pos hr]
    · right
      refine ⟨staticRewrites b1 b2 b3 false, hr, ?_, by rw [if_neg hr]⟩
      intro x hx
      simp only [staticRewrites, List.mem_append] at hx
      rcases hx with ((hx | hx) | hx) | hx
      · simp [mem_condList hx]
      · simp [mem_condList hx]
      · simp [mem_condList hx]
      · simp [condList] at hx

set_option maxHeartbeats 2000000 in
/-- C10 (witness for the amended theorem): both directions at concrete
inputs — `= 20235` matches (as year 2023) and is structurally rewritten with
a residual `5`; `= 2100` does not match and yields at most guidance lines. -/
theorem c10_amended_witness :
    yearFind (stripB ("SELECT Id FROM Events WHERE YEAR(CreatedAt) = 20235").data) =
      some ("CreatedAt".data, 2023) ∧
    (static_rules "SELECT Id FROM Events WHERE YEAR(CreatedAt) = 20235").rewriteOut =
      some "SELECT Id FROM Events WHERE CreatedAt >= '2023-01-01' AND CreatedAt < '2024-01-01'5" ∧
    yearFind (stripB ("SELECT Id FROM Events WHERE YEAR(CreatedAt) = 2100").data) = none ∧
    ((static_rules "SELECT Id FROM Events WHERE YEAR(CreatedAt) = 2100").rewriteOut = none ∨
      ∃ lines, lines ≠ [] ∧ (∀ x ∈ lines, x ∈ [gStar, gLike, gSarg]) ∧
        (static_rules "SELECT Id FROM Events WHERE YEAR(CreatedAt) = 2100").rewriteOut =
          some (joinNl lines)) := by
  refine ⟨by decide, ?_, by decide,
    (c10_amended "SELECT Id FROM Events WHERE YEAR(CreatedAt) = 2100").2 (by decide)⟩
  have h := (c10_amended "SELECT Id FROM Events WHERE YEAR(CreatedAt) = 20235").1
    "CreatedAt".data 2023 (by decide)
  rw [h]
  decide

end SqlOpt
